import Mathlib

set_option linter.unusedVariables false

/-!
Verification of the metadata-exchange core of DHTsimple (`dht/meta.go`).

The Go code is shallowly embedded: bytes are `Nat`, byte slices are
`List Nat`, Go `int64` is `Int`, Go `[][]byte` with `nil` slots is
`List (Option (List Nat))`.  The external collaborators (the bencode
encode/decode primitive and the SHA-1 digest primitive) are either taken
as function parameters or modelled from the spec where a concrete byte
encoding is needed.  A Go runtime panic (out-of-range slice index) is an
explicit outcome of the embedding, distinct from a returned `error`.
-/

set_option autoImplicit false

namespace DHT

/-- Result of a Go function returning `(α, error)`, with a third outcome
for a runtime panic (out-of-range index).  `err` carries the error
string; the accompanying data result is Go `nil`. -/
inductive GoRes (α : Type) where
  | ok : α → GoRes α
  | err : String → GoRes α
  | panic : GoRes α
  deriving DecidableEq

/-- Values produced by the external bencode decoder
(`bencode.Decode` returns `map[string]interface{}`): integers, byte
strings and nested dictionaries, the shapes this protocol consumes. -/
inductive Benc where
  | bint : Int → Benc
  | bstr : List Nat → Benc
  | bdict : List (String × Benc) → Benc

/-- A decoded bencode dictionary (`map[string]interface{}`), as an
association list. -/
abbrev Bdict := List (String × Benc)

/-- Go map lookup on a decoded dictionary. -/
def blookup (k : String) : Bdict → Option Benc
  | [] => none
  | (k2, v) :: rest => if k2 = k then some v else blookup k rest

/-- Go `dict[k].(int64)`: the lookup combined with the type assertion;
`none` when the key is absent or the value is not an integer. -/
def lookInt (d : Bdict) (k : String) : Option Int :=
  match blookup k d with
  | some (Benc.bint n) => some n
  | _ => none

/-- Go `dict[k].(map[string]interface{})`: lookup plus type assertion to
a nested dictionary. -/
def lookDict (d : Bdict) (k : String) : Option Bdict :=
  match blookup k d with
  | some (Benc.bdict m) => some m
  | _ => none

/-- `perBlock = 16384` (meta.go line 18). -/
def perBlock : Int := 16384

/-- `maxMetadataSize = perBlock * 1024` (meta.go line 19). -/
def maxMetadataSize : Int := perBlock * 1024

/-- `extended = 20` (meta.go line 20), the extended-message id byte. -/
def extended : Nat := 20

/-- The bytes of a Lean string, for building wire constants. -/
def strBytes (s : String) : List Nat :=
  s.toList.map Char.toNat

/-- Go `bytes.Index(payload, []byte("ee"))` restricted to this fixed
two-byte pattern: the first position where byte 101 (`e`) is followed by
another byte 101, as `some` position, `none` when the pattern does not
occur. -/
def findEE : List Nat → Option Nat
  | a :: b :: rest =>
    if a = 101 ∧ b = 101 then some 0
    else (findEE (b :: rest)).map (· + 1)
  | _ => none

/-- `checkDone` (meta.go lines 49-56): every piece slot is non-nil. -/
def checkDone (pieces : List (Option (List Nat))) : Bool :=
  pieces.all fun b => b.isSome

/-- The `trailerIndex` computed at meta.go line 59:
`bytes.Index(payload, []byte("ee")) + 2` (so `1` when the marker is
absent). -/
def trailerIdx (payload : List Nat) : Int :=
  (match findEE payload with
   | none => -1
   | some i => Int.ofNat i) + 2

/-- `readOnePiece` (meta.go lines 58-80), parameterised by the external
bencode decoder `dec`.  `cnt` is `m.pieceCount` and `pieces` is
`m.pieces`; the result carries the updated pieces table.  The final
assignment `m.pieces[pieceIndex] = payload[trailerIndex:]` panics in Go
when `pieceIndex` is negative or at least `len(m.pieces)`. -/
def readOnePiece (dec : List Nat → Except String Bdict) (cnt : Int)
    (pieces : List (Option (List Nat))) (payload : List Nat) :
    GoRes (List (Option (List Nat))) :=
  if trailerIdx payload = 1 then GoRes.err "ee == 1"
  else
    match dec (payload.take (trailerIdx payload).toNat) with
    | Except.error e => GoRes.err e
    | Except.ok dict =>
      match lookInt dict "piece" with
      | none => GoRes.err "piece num error"
      | some pieceIndex =>
        if pieceIndex ≥ cnt then GoRes.err "piece num error"
        else
          match lookInt dict "msg_type" with
          | none => GoRes.err "piece type error"
          | some msgType =>
            if msgType ≠ 1 then GoRes.err "piece type error"
            else if 0 ≤ pieceIndex ∧ pieceIndex.toNat < pieces.length then
              GoRes.ok (pieces.set pieceIndex.toNat
                (some (payload.drop (trailerIdx payload).toNat)))
            else GoRes.panic

/-- `bytes.Join(m.pieces, []byte(""))` (meta.go line 111): concatenation
of the stored pieces in index order, `nil` slots contributing nothing. -/
def joinPieces (pieces : List (Option (List Nat))) : List Nat :=
  pieces.foldr (fun p acc => p.getD [] ++ acc) []

/-- The read/response loop of `Begin` (meta.go lines 89-118).  The
connection's incoming frames are the list `frames` (each element one
`ReadN` payload); an exhausted list is a failed read (timeout /
connection error).  `data[0]` and `data[1]` panic on frames shorter than
they require.  Parameters: `dec` the external bencode decoder, `sh` the
external SHA-1 digest, `hash` is `m.infoHash`, `cnt` is `m.pieceCount`. -/
def Begin (dec : List Nat → Except String Bdict) (sh : List Nat → List Nat)
    (hash : List Nat) (cnt : Int) :
    List (List Nat) → List (Option (List Nat)) → GoRes (List Nat)
  | [], _ => GoRes.err "read error"
  | f :: rest, pieces =>
    match f with
    | [] => GoRes.panic
    | b0 :: tail =>
      if b0 ≠ extended then Begin dec sh hash cnt rest pieces
      else
        match tail with
        | [] => GoRes.panic
        | b1 :: payload =>
          if b1 ≠ 1 then Begin dec sh hash cnt rest pieces
          else
            match readOnePiece dec cnt pieces payload with
            | GoRes.err e => GoRes.err e
            | GoRes.panic => GoRes.panic
            | GoRes.ok pieces2 =>
              if checkDone pieces2 = false then Begin dec sh hash cnt rest pieces2
              else
                if sh (joinPieces pieces2) = hash then GoRes.ok (joinPieces pieces2)
                else GoRes.err "metadata checksum mismatch"

/-- The session state recorded by a successful extension handshake
(fields `metadataSize`, `utMetadata`, `pieceCount`, `pieces` of `Meta`). -/
structure ExtState where
  metadataSize : Int
  utMetadata : Int
  pieceCount : Int
  pieces : List (Option (List Nat))
  deriving DecidableEq

/-- `onExtHandshake` (meta.go lines 255-294), parameterised by the
external bencode decoder.  On success it returns the recorded fields,
with `pieces = make([][]byte, pieceCount)` an all-nil table.  Go `/` and
`%` on `int64` truncate toward zero (`Int.tdiv` / `Int.tmod`). -/
def onExtHandshake (dec : List Nat → Except String Bdict)
    (payload : List Nat) : Except String ExtState :=
  match dec payload with
  | Except.error e => Except.error e
  | Except.ok dict =>
    match lookInt dict "metadata_size" with
    | none => Except.error "invalid extension header response"
    | some metadataSize =>
      if metadataSize > maxMetadataSize then Except.error "metadata_size too long"
      else if metadataSize < 0 then Except.error "negative metadata_size"
      else
        match lookDict dict "m" with
        | none => Except.error "negative metadata m"
        | some mm =>
          match lookInt mm "ut_metadata" with
          | none => Except.error "negative metadata ut_metadata"
          | some utMetadata =>
            let pieceCount :=
              metadataSize.tdiv perBlock +
                (if metadataSize.tmod perBlock ≠ 0 then 1 else 0)
            Except.ok
              { metadataSize := metadataSize
                utMetadata := utMetadata
                pieceCount := pieceCount
                pieces := List.replicate pieceCount.toNat none }

/-- Modelled from the spec: the external bencode primitive's encoding of
an integer, `i<decimal>e`. -/
def bencInt (n : Int) : List Nat :=
  strBytes ("i" ++ toString n ++ "e")

/-- Modelled from the spec: the external bencode primitive's encoding of
a byte string, `<decimal length>` then `:` (byte 58) then the bytes. -/
def bencStr (s : List Nat) : List Nat :=
  strBytes (toString s.length) ++ (58 :: s)

/-- Modelled from the spec: bencode encoding of a one-key dictionary
(`d`, the encoded key and value, `e`), the value already encoded. -/
def bencDict1 (k : String) (v : List Nat) : List Nat :=
  100 :: (bencStr (strBytes k) ++ v ++ [101])

/-- Modelled from the spec: bencode encoding of a two-key dictionary,
keys in bencode's sorted order, values already encoded. -/
def bencDict2 (k1 : String) (v1 : List Nat) (k2 : String) (v2 : List Nat) : List Nat :=
  100 :: (bencStr (strBytes k1) ++ v1 ++ bencStr (strBytes k2) ++ v2 ++ [101])

/-- `binary.BigEndian.PutUint32` of `uint32(n)`: the 4-byte big-endian
length prefix; the conversion to `uint32` reduces mod 2^32. -/
def be32 (n : Nat) : List Nat :=
  [n % 2 ^ 32 / 2 ^ 24, n % 2 ^ 32 / 2 ^ 16 % 256, n % 2 ^ 32 / 2 ^ 8 % 256, n % 2 ^ 32 % 256]

/-- `WriteTo` (meta.go lines 164-180): the frame put on the wire is the
4-byte big-endian length of `data` followed by `data` itself. -/
def WriteTo (data : List Nat) : List Nat :=
  be32 data.length ++ data

/-- The bencoded handshake dictionary built at meta.go lines 202-206:
`bencode.Encode(map{"m": map{"ut_metadata": 1}})`. -/
def extHandShakeDict : List Nat :=
  bencDict1 "m" (bencDict1 "ut_metadata" (bencInt 1))

/-- `data := append([]byte{extended, extHandshake}, <encoded dict>...)`
(meta.go lines 202-206): sub-protocol header bytes 20, 0 then the dict. -/
def extHandShakeData : List Nat :=
  extended :: 0 :: extHandShakeDict

/-- The frame `extHandShake` actually writes (meta.go line 207):
`m.WriteTo(bencode.Encode(data))` — a second `bencode.Encode` applied to
the byte slice `data`, which (per the bencode primitive: byte strings
encode as `<length>:<bytes>`) wraps the payload as a bencoded string. -/
def extHandShakeSentFrame : List Nat :=
  WriteTo (bencStr extHandShakeData)

/-- The reply half of `extHandShake` (meta.go lines 211-222): reads one
frame, checks byte 0 is `extended` and byte 1 is `0`, then hands the rest
to `onExtHandshake`.  `data[0]` / `data[1]` panic on too-short frames. -/
def extHandShakeReply (dec : List Nat → Except String Bdict)
    (data : List Nat) : GoRes ExtState :=
  match data with
  | [] => GoRes.panic
  | b0 :: tail =>
    if b0 ≠ extended then GoRes.err "data 0 err"
    else
      match tail with
      | [] => GoRes.panic
      | b1 :: payload =>
        if b1 ≠ 0 then GoRes.err "data 1 err"
        else
          match onExtHandshake dec payload with
          | Except.error e => GoRes.err e
          | Except.ok st => GoRes.ok st

/-- Modelled from the spec: `MakePreHeader` is code of this repository
that is not under `src/` (it is called at meta.go line 45).  Per the
spec, the handshake's first 28 bytes are the length byte `0x13`, the
19-byte protocol identifier `"BitTorrent protocol"`, and 8 reserved
bytes with bit `0x10` of reserved byte index 5 set. -/
def MakePreHeader : List Nat :=
  19 :: strBytes "BitTorrent protocol" ++ [0, 0, 0, 0, 0, 16, 0, 0]

/-- `HandShake` (meta.go lines 225-253).  `writeErr` is the error value
of `m.conn.Write` at line 230: it is bound to `err` and then immediately
shadowed by the `io.ReadFull` result at line 233 without being checked.
`readRes` is the outcome of that `io.ReadFull` (on success the 68-byte
reply, so the embedded `n` is the reply's length). -/
def HandShake (infoHash : List Nat) (writeErr : Option String)
    (readRes : Except String (List Nat)) : Except String Unit :=
  match readRes with
  | Except.error e => Except.error e
  | Except.ok res =>
    if res.length ≠ 68 then Except.error "hand read len err"
    else if ¬ (res.take 20 = MakePreHeader.take 20) then
      Except.error "remote peer not supporting bittorrent protocol"
    else if ¬ (res.getD 25 0 &&& 16 = 16) then
      Except.error "remote peer not supporting extension protocol"
    else if ¬ ((res.drop 28).take 20 = infoHash) then
      Except.error "invalid bittorrent header response"
    else Except.ok ()

/-- The request message `requestPiece` builds (meta.go lines 296-303):
`extended`, `byte(mw.utMetadata)` (the low 8 bits of the `int64`), then
`bencode.Encode(map{"msg_type": 0, "piece": i})`. -/
def requestPieceMsg (ut : Int) (i : Int) : List Nat :=
  extended :: (ut.emod 256).toNat ::
    bencDict2 "msg_type" (bencInt 0) "piece" (bencInt i)

/-- The full `Begin` (meta.go lines 82-119): first the request loop
`for i := 0; i < int(m.pieceCount); i++ { m.requestPiece(i) }`, then the
read loop.  `writeRes` gives the network outcome of each request's
`WriteTo`; `requestPiece` discards that error (meta.go line 304), so it
feeds nothing.  Returns the frames written and the loop's result. -/
def BeginGo (writeRes : Int → Except String Unit)
    (dec : List Nat → Except String Bdict) (sh : List Nat → List Nat)
    (hash : List Nat) (st : ExtState) (frames : List (List Nat)) :
    List (List Nat) × GoRes (List Nat) :=
  ((List.range st.pieceCount.toNat).map
      (fun i => WriteTo (requestPieceMsg st.utMetadata (Int.ofNat i))),
    Begin dec sh hash st.pieceCount frames st.pieces)

/-- The piece-request frames one session sends, as driven by `Start` →
`Connect` → `Begin` (meta.go lines 121-141, 149-162, 82-87): requests
are sent only inside `Begin`, which runs only after `Connect` (hence the
extension handshake) returned without error. -/
def sessionRequests (dec : List Nat → Except String Bdict)
    (extReplyFrame : List Nat) : List (List Nat) :=
  match extHandShakeReply dec extReplyFrame with
  | GoRes.ok st => (List.range st.pieceCount.toNat).map
      (fun i => WriteTo (requestPieceMsg st.utMetadata (Int.ofNat i)))
  | _ => []

/-- Discriminator: the run returned a Go `error` (as opposed to a
success or a runtime panic). -/
def isErr {α : Type} : GoRes α → Bool
  | GoRes.err _ => true
  | _ => false

/-- A stand-in for the external bencode decoder that decodes everything
to an empty dictionary; used to instantiate theorems at concrete
inputs. -/
def decEmpty : List Nat → Except String Bdict :=
  fun _ => Except.ok []

/-- A stand-in for the external SHA-1 digest (the identity function);
used to instantiate theorems at concrete inputs. -/
def shId : List Nat → List Nat :=
  fun x => x

/-- A stand-in network write outcome (every write succeeds); used to
instantiate theorems at concrete inputs. -/
def wrOk : Int → Except String Unit :=
  fun _ => Except.ok ()

/-- Models the external bencode decoder's result on an extension
handshake reply announcing `metadata_size = ms` and `m.ut_metadata = ut`. -/
def decExt (ms ut : Int) : List Nat → Except String Bdict :=
  fun _ => Except.ok
    [("metadata_size", Benc.bint ms),
     ("m", Benc.bdict [("ut_metadata", Benc.bint ut)])]

/-- Models the external bencode decoder's result on a piece-reply
dictionary `{"msg_type": mt, "piece": pi}` (the decoder returns its keys
in some order; lookup is key-based, so the order is immaterial). -/
def decPiece (pi mt : Int) : List Nat → Except String Bdict :=
  fun _ => Except.ok [("piece", Benc.bint pi), ("msg_type", Benc.bint mt)]

/-- A sequence of index-addressed stores `m.pieces[k] = v` (meta.go line
78, one per accepted piece reply) applied to the piece table in arrival
order. -/
def applyStores (pieces : List (Option (List Nat)))
    (ws : List (Nat × List Nat)) : List (Option (List Nat)) :=
  ws.foldl (fun ps w => ps.set w.1 (some w.2)) pieces

/-- The payload of the last store at index `k` in a store sequence, when
any store targets `k`. -/
def lastStore : List (Nat × List Nat) → Nat → Option (List Nat)
  | [], _ => none
  | w :: rest, k =>
    match lastStore rest k with
    | some v => some v
    | none => if w.1 = k then some w.2 else none

end DHT

namespace DHT

/-- Go truncated division and remainder by `perBlock`, followed by the
conditional increment, compute the ceiling of the division for a
non-negative numerator. -/
theorem tdiv_ceil_eq (ms : Int) (h0 : 0 ≤ ms) :
    (ms.tdiv perBlock + (if ms.tmod perBlock ≠ 0 then 1 else 0)).toNat
      = (ms.toNat + (perBlock.toNat - 1)) / perBlock.toNat := by
  obtain ⟨n, rfl⟩ : ∃ n : Nat, ms = Int.ofNat n :=
    ⟨ms.toNat, (Int.toNat_of_nonneg h0).symm⟩
  have h1 : (Int.ofNat n).tdiv perBlock = Int.ofNat (n / 16384) := by
    unfold perBlock
    exact_mod_cast (Int.ofNat_tdiv n 16384).symm
  have h2 : (Int.ofNat n).tmod perBlock = Int.ofNat (n % 16384) := by
    unfold perBlock
    exact_mod_cast (Int.ofNat_tmod n 16384).symm
  rw [h1, h2]
  unfold perBlock
  by_cases h : n % 16384 = 0 <;> simp [h] <;> omega

/-- Claim C4: every `metadataSize` accepted by the extension handshake
lies in `[0, maxMetadataSize]`, the derived piece count is
`ceil(metadataSize / 16384)` (computed as the truncated quotient plus
one exactly when the remainder is non-zero), and the piece table is
created with exactly that many slots. -/
theorem C4_pieceCount_is_ceil (dec : List Nat → Except String Bdict)
    (payload : List Nat) (st : ExtState)
    (h : onExtHandshake dec payload = Except.ok st) :
    0 ≤ st.metadataSize ∧ st.metadataSize ≤ maxMetadataSize ∧
      st.pieceCount.toNat = (st.metadataSize.toNat + (perBlock.toNat - 1)) / perBlock.toNat ∧
      st.pieces.length = st.pieceCount.toNat := by
  unfold onExtHandshake at h
  split at h
  · cases h
  · split at h
    · cases h
    · split at h
      · cases h
      · split at h
        · cases h
        · split at h
          · cases h
          · split at h
            · cases h
            · injection h with h
              subst h
              dsimp only
              refine ⟨by omega, ?_, ?_, ?_⟩
              · simp only [maxMetadataSize, perBlock] at *
                omega
              · exact tdiv_ceil_eq _ (by omega)
              · simp [List.length_replicate]

/-- Witness for C4 at `metadata_size = 20000`: the handshake is accepted
with piece count `2 = ceil(20000 / 16384)` and a two-slot table. -/
theorem C4_pieceCount_is_ceil_witness :
    0 ≤ (20000 : Int) ∧ (20000 : Int) ≤ maxMetadataSize ∧
      (Int.toNat 2) = ((20000 : Int).toNat + (perBlock.toNat - 1)) / perBlock.toNat ∧
      (List.replicate 2 (none : Option (List Nat))).length = (Int.toNat 2) := by
  have h := C4_pieceCount_is_ceil (decExt 20000 3) []
    ⟨20000, 3, 2, List.replicate 2 none⟩ rfl
  exact h

/-- Claim C3 (code evaluated at the failing point): the frame written by
`extHandShake` is `WriteTo(bencode.Encode(data))` with
`data = 20, 0, <bencoded dict>`; after the 4-byte length prefix its
payload is the bencode string wrapper `"26:"` followed by `data`, and so
is not exactly the two bytes `20, 0` followed by the dictionary. -/
theorem C3_handshake_frame_double_encoded :
    extHandShakeSentFrame = WriteTo (bencStr extHandShakeData) ∧
    extHandShakeSentFrame.drop 4 = strBytes "26:" ++ extHandShakeData ∧
    extHandShakeSentFrame.drop 4 ≠ extHandShakeData ∧
    extHandShakeData = 20 :: 0 :: strBytes "d1:md11:ut_metadatai1eee" := by
  exact ⟨rfl, by decide, by decide, by decide⟩

/-- Claim C7: base-handshake validation of a 68-byte reply performs, in
order, the protocol-prefix check, the extension-bit check (`0x10` of
reply byte 25), and the info-hash echo check; each failing check yields
its own error and the three error strings are pairwise distinct. -/
theorem C7_handshake_checks (infoHash res : List Nat) (w : Option String)
    (hlen : res.length = 68) :
    (res.take 20 ≠ MakePreHeader.take 20 →
        HandShake infoHash w (Except.ok res) =
          Except.error "remote peer not supporting bittorrent protocol") ∧
    (res.take 20 = MakePreHeader.take 20 → res.getD 25 0 &&& 16 ≠ 16 →
        HandShake infoHash w (Except.ok res) =
          Except.error "remote peer not supporting extension protocol") ∧
    (res.take 20 = MakePreHeader.take 20 → res.getD 25 0 &&& 16 = 16 →
        (res.drop 28).take 20 ≠ infoHash →
        HandShake infoHash w (Except.ok res) =
          Except.error "invalid bittorrent header response") ∧
    (res.take 20 = MakePreHeader.take 20 → res.getD 25 0 &&& 16 = 16 →
        (res.drop 28).take 20 = infoHash →
        HandShake infoHash w (Except.ok res) = Except.ok ()) ∧
    ("remote peer not supporting bittorrent protocol" ≠
        "remote peer not supporting extension protocol" ∧
      "remote peer not supporting bittorrent protocol" ≠
        "invalid bittorrent header response" ∧
      "remote peer not supporting extension protocol" ≠
        "invalid bittorrent header response") := by
  rw [List.getD_eq_getElem res 0 (show 25 < res.length by omega)]
  refine ⟨fun h1 => by simp [HandShake, hlen, h1],
    fun h1 h2 => by simp [HandShake, hlen, h1, h2],
    fun h1 h2 h3 => by simp [HandShake, hlen, h1, h2, h3],
    fun h1 h2 h3 => by simp [HandShake, hlen, h1, h2, h3],
    by decide, by decide, by decide⟩

/-- Witness for C7: an all-zero 68-byte reply fails the first check with
the protocol-mismatch error. -/
theorem C7_handshake_checks_witness :
    HandShake [1] none (Except.ok (List.replicate 68 0)) =
      Except.error "remote peer not supporting bittorrent protocol" :=
  (C7_handshake_checks [1] (List.replicate 68 0) none (by decide)).1 (by decide)

/-- Claim C9 counterexample: a frame of declared length 1 whose single
byte is not 20 does not cause an out-of-range access: the piece
loop skips it (failing only on the next read of the exhausted stream)
and the extension-handshake handler reports the typed error
`data 0 err`. -/
theorem C9_counterexample :
    Begin decEmpty shId [] 1 [[0]] [none] = GoRes.err "read error" ∧
    extHandShakeReply decEmpty [0] = GoRes.err "data 0 err" :=
  ⟨rfl, rfl⟩

/-- Claim C9 (amended): both the piece-response loop and the
extension-handshake reply handler read byte 0 of a received frame with
no length check, so a length-0 (keep-alive) frame causes an out-of-range
access; byte 1 is read only after byte 0 is found to equal 20, so a
length-1 frame causes an out-of-range access exactly when its byte is
20, and is otherwise skipped by the loop or reported as the typed
error `data 0 err` by the handshake handler. -/
theorem C9_short_frames (dec : List Nat → Except String Bdict)
    (sh : List Nat → List Nat) (hash : List Nat) (cnt : Int)
    (pieces : List (Option (List Nat))) (rest : List (List Nat)) (b : Nat) :
    Begin dec sh hash cnt ([] :: rest) pieces = GoRes.panic ∧
    Begin dec sh hash cnt ([extended] :: rest) pieces = GoRes.panic ∧
    (b ≠ extended →
      Begin dec sh hash cnt ([b] :: rest) pieces =
        Begin dec sh hash cnt rest pieces) ∧
    extHandShakeReply dec [] = GoRes.panic ∧
    extHandShakeReply dec [extended] = GoRes.panic ∧
    (b ≠ extended → extHandShakeReply dec [b] = GoRes.err "data 0 err") := by
  refine ⟨rfl, by simp [Begin], fun hb => by simp [Begin, hb], rfl,
    by simp [extHandShakeReply], fun hb => by simp [extHandShakeReply, hb]⟩

/-- Witness for C9 (amended) at frame byte 0: the loop skips the
length-1 frame and the handshake handler returns the typed error. -/
theorem C9_short_frames_witness :
    Begin decEmpty shId [] 1 [[0]] [none] = Begin decEmpty shId [] 1 [] [none] ∧
    extHandShakeReply decEmpty [0] = GoRes.err "data 0 err" :=
  ⟨(C9_short_frames decEmpty shId [] 1 [none] [] 0).2.2.1 (by decide),
   (C9_short_frames decEmpty shId [] 1 [none] [] 0).2.2.2.2.2 (by decide)⟩

/-- Claim C10: send failures do not feed the session's result:
`HandShake`'s outcome is the same whatever the error of the 68-byte
write (the `err` variable is overwritten by the read's error before
being checked), and `Begin`'s sent frames and loop result are the same
whatever the per-request `WriteTo` outcomes (`requestPiece` discards
them), so a write failure can surface only through a later failed
read. -/
theorem C10_send_failures_ignored :
    (∀ (infoHash : List Nat) (w w' : Option String)
        (r : Except String (List Nat)),
        HandShake infoHash w r = HandShake infoHash w' r) ∧
    (∀ (wr wr' : Int → Except String Unit)
        (dec : List Nat → Except String Bdict) (sh : List Nat → List Nat)
        (hash : List Nat) (st : ExtState) (frames : List (List Nat)),
        BeginGo wr dec sh hash st frames = BeginGo wr' dec sh hash st frames) :=
  ⟨fun _ _ _ _ => rfl, fun _ _ _ _ _ _ _ => rfl⟩

/-- With a zero piece count and an empty table, `readOnePiece` never
succeeds: a non-negative decoded index fails the `pieceIndex >=
m.pieceCount` test and a negative one reaches the out-of-range store. -/
theorem readOnePiece_zero_no_ok (dec : List Nat → Except String Bdict)
    (payload : List Nat) (ps : List (Option (List Nat))) :
    readOnePiece dec 0 [] payload ≠ GoRes.ok ps := by
  intro h
  unfold readOnePiece at h
  split at h
  · cases h
  · split at h
    · cases h
    · split at h
      · cases h
      · split at h
        · cases h
        · split at h
          · cases h
          · split at h
            · cases h
            · split at h
              · next hcond =>
                simp only [List.length_nil] at hcond
                omega
              · cases h

/-- With a zero piece count and an empty table the read loop of `Begin`
never returns metadata: every frame is skipped, panics, or produces an
error, and an exhausted stream is a read error. -/
theorem begin_zero_no_ok (dec : List Nat → Except String Bdict)
    (sh : List Nat → List Nat) (hash : List Nat) :
    ∀ (frames : List (List Nat)) (out : List Nat),
      Begin dec sh hash 0 frames [] ≠ GoRes.ok out := by
  intro frames
  induction frames with
  | nil => intro out h; cases h
  | cons f rest ih =>
    intro out h
    simp only [Begin] at h
    split at h
    · cases h
    · split at h
      · exact ih out h
      · split at h
        · cases h
        · split at h
          · exact ih out h
          · split at h
            · cases h
            · cases h
            · next ps hps =>
              exact readOnePiece_zero_no_ok dec _ ps hps

/-- Claim C5 counterexample: with `metadata_size = 0` the handshake
yields piece count 0 and an empty table, yet `Begin` still asks the
connection for a frame: given no further frame from the peer it returns
a read error instead of returning the empty metadata. -/
theorem C5_counterexample :
    onExtHandshake (decExt 0 3) [] = Except.ok ⟨0, 3, 0, []⟩ ∧
    Begin (decExt 0 3) shId [] 0 [] [] = GoRes.err "read error" ∧
    Begin (decExt 0 3) shId [] 0 [] [] ≠ GoRes.ok [] := by
  exact ⟨rfl, rfl, by decide⟩

/-- Claim C5 (amended): `metadata_size = 0` yields piece count 0, an
empty table that is already complete, and no piece requests; but the
read loop still waits for a frame from the peer and never returns the
empty metadata: every frame trace ends in an error or a panic. -/
theorem C5_zero_metadata (dec : List Nat → Except String Bdict)
    (payload : List Nat) (st : ExtState)
    (h : onExtHandshake dec payload = Except.ok st)
    (h0 : st.metadataSize = 0) :
    st.pieceCount = 0 ∧ st.pieces = [] ∧ checkDone st.pieces = true ∧
    (∀ (wr : Int → Except String Unit) (dec2 : List Nat → Except String Bdict)
        (sh : List Nat → List Nat) (hash : List Nat) (frames : List (List Nat)),
      (BeginGo wr dec2 sh hash st frames).1 = [] ∧
      ∀ out : List Nat, (BeginGo wr dec2 sh hash st frames).2 ≠ GoRes.ok out) := by
  unfold onExtHandshake at h
  split at h
  · cases h
  · split at h
    · cases h
    · split at h
      · cases h
      · split at h
        · cases h
        · split at h
          · cases h
          · split at h
            · cases h
            · injection h with h
              subst h
              simp only [ExtState.metadataSize] at h0
              subst h0
              have hpc : Int.tdiv 0 perBlock +
                  (if Int.tmod 0 perBlock ≠ 0 then 1 else 0) = 0 := by decide
              refine ⟨hpc, by simp [hpc], by simp [hpc, checkDone], ?_⟩
              intro wr dec2 sh hash frames
              constructor
              · simp [BeginGo, hpc]
              · intro out
                simp only [BeginGo, hpc]
                simpa [hpc] using begin_zero_no_ok dec2 sh hash frames out

/-- Witness for C5 (amended) at `metadata_size = 0`, `ut_metadata = 3`:
piece count 0, empty complete table, no requests, and no metadata from
an empty frame trace. -/
theorem C5_zero_metadata_witness :
    (ExtState.mk 0 3 0 []).pieceCount = 0 ∧
    (ExtState.mk 0 3 0 []).pieces = [] ∧
    checkDone (ExtState.mk 0 3 0 []).pieces = true ∧
    ((BeginGo wrOk decEmpty shId [] (ExtState.mk 0 3 0 []) []).1 = [] ∧
      ∀ out : List Nat,
        (BeginGo wrOk decEmpty shId [] (ExtState.mk 0 3 0 []) []).2 ≠ GoRes.ok out) := by
  have h := C5_zero_metadata (decExt 0 3) [] ⟨0, 3, 0, []⟩ rfl rfl
  exact ⟨h.1, h.2.1, h.2.2.1, h.2.2.2 wrOk decEmpty shId [] []⟩

/-- Claim C6: the extension-handshake reply's fields are validated with
a distinct error per failure — missing/non-integer `metadata_size`,
over-large size, negative size, missing `"m"` dictionary,
missing/non-integer `m.ut_metadata` — any such failure leaves the
session without a single piece request, and only a fully valid reply
records `metadataSize` and `utMetadata`. -/
theorem C6_ext_reply_validation (dec : List Nat → Except String Bdict)
    (payload : List Nat) (dict : Bdict)
    (hdec : dec payload = Except.ok dict) :
    (lookInt dict "metadata_size" = none →
        onExtHandshake dec payload =
          Except.error "invalid extension header response") ∧
    (∀ ms, lookInt dict "metadata_size" = some ms → ms > maxMetadataSize →
        onExtHandshake dec payload = Except.error "metadata_size too long") ∧
    (∀ ms, lookInt dict "metadata_size" = some ms → ms < 0 →
        onExtHandshake dec payload = Except.error "negative metadata_size") ∧
    (∀ ms, lookInt dict "metadata_size" = some ms → 0 ≤ ms →
        ms ≤ maxMetadataSize → lookDict dict "m" = none →
        onExtHandshake dec payload = Except.error "negative metadata m") ∧
    (∀ ms mm, lookInt dict "metadata_size" = some ms → 0 ≤ ms →
        ms ≤ maxMetadataSize → lookDict dict "m" = some mm →
        lookInt mm "ut_metadata" = none →
        onExtHandshake dec payload = Except.error "negative metadata ut_metadata") ∧
    (∀ ms mm ut, lookInt dict "metadata_size" = some ms → 0 ≤ ms →
        ms ≤ maxMetadataSize → lookDict dict "m" = some mm →
        lookInt mm "ut_metadata" = some ut →
        ∃ st, onExtHandshake dec payload = Except.ok st ∧
          st.metadataSize = ms ∧ st.utMetadata = ut) ∧
    (∀ e, onExtHandshake dec payload = Except.error e →
        sessionRequests dec (extended :: 0 :: payload) = []) ∧
    List.Pairwise (fun a b => a ≠ b)
      ["invalid extension header response", "metadata_size too long",
        "negative metadata_size", "negative metadata m",
        "negative metadata ut_metadata"] := by
  refine ⟨?_, ?_, ?_, ?_, ?_, ?_, ?_, by decide⟩
  · intro hms
    simp [onExtHandshake, hdec, hms]
  · intro ms hms hbig
    simp only [onExtHandshake, hdec, hms]
    rw [if_pos hbig]
  · intro ms hms hneg
    simp only [onExtHandshake, hdec, hms]
    rw [if_neg (by simp only [maxMetadataSize, perBlock]; omega),
      if_pos hneg]
  · intro ms hms h0 hle hm
    simp only [onExtHandshake, hdec, hms, hm]
    rw [if_neg (by simp only [maxMetadataSize, perBlock] at *; omega),
      if_neg (by omega)]
  · intro ms mm hms h0 hle hm hut
    simp only [onExtHandshake, hdec, hms, hm, hut]
    rw [if_neg (by simp only [maxMetadataSize, perBlock] at *; omega),
      if_neg (by omega)]
  · intro ms mm ut hms h0 hle hm hut
    refine ⟨⟨ms, ut,
        ms.tdiv perBlock + (if ms.tmod perBlock ≠ 0 then 1 else 0),
        List.replicate
          (ms.tdiv perBlock + (if ms.tmod perBlock ≠ 0 then 1 else 0)).toNat
          none⟩, ?_, rfl, rfl⟩
    simp only [onExtHandshake, hdec, hms, hm, hut]
    rw [if_neg (by simp only [maxMetadataSize, perBlock] at *; omega),
      if_neg (by omega)]
  · intro e he
    simp [sessionRequests, extHandShakeReply, extended, he]

/-- Witness for C6 at `metadata_size = -1`: the reply fails with the
negative-size error and the session sends no piece request. -/
theorem C6_ext_reply_validation_witness :
    onExtHandshake (decExt (-1) 3) [] = Except.error "negative metadata_size" ∧
    sessionRequests (decExt (-1) 3) (extended :: 0 :: []) = [] := by
  have h := C6_ext_reply_validation (decExt (-1) 3) []
    [("metadata_size", Benc.bint (-1)),
     ("m", Benc.bdict [("ut_metadata", Benc.bint 3)])] rfl
  have hneg := h.2.2.1 (-1) rfl (by decide)
  exact ⟨hneg, h.2.2.2.2.2.2.1 "negative metadata_size" hneg⟩

/-- Claim C2 counterexample: a decoded piece reply with `msg_type = 1`
and `piece = -1` (bencoded `d8:msg_typei1e5:piecei-1ee`) is not rejected
with an error: only the upper bound of the index is checked, validation
passes, and the store `m.pieces[-1] = ...` is an out-of-range access — a
runtime panic, not a returned error. -/
theorem C2_counterexample :
    readOnePiece (decPiece (-1) 1) 1 [none]
        (strBytes "d8:msg_typei1e5:piecei-1ee") = GoRes.panic ∧
    isErr (readOnePiece (decPiece (-1) 1) 1 [none]
        (strBytes "d8:msg_typei1e5:piecei-1ee")) = false :=
  ⟨rfl, rfl⟩

/-- Claim C2 (amended): for every decoded piece-reply dictionary,
processing fails with `piece num error` when the `piece` entry is
missing/non-integer or at least `pieceCount`, and with
`piece type error` when `msg_type` is missing/non-integer or is not 1
(in particular `msg_type = 2`, the reject message, is an error); but
only the upper bound of the index is checked: a negative decoded index
with `msg_type = 1` passes validation and the store performs an
out-of-range access (runtime panic) instead of returning an error. -/
theorem C2_piece_reply_validation (dec : List Nat → Except String Bdict)
    (cnt : Int) (pieces : List (Option (List Nat))) (payload : List Nat)
    (dict : Bdict) (tIdx : Nat)
    (hEE : findEE payload = some tIdx)
    (hdec : dec (payload.take (tIdx + 2)) = Except.ok dict) :
    (lookInt dict "piece" = none →
        readOnePiece dec cnt pieces payload = GoRes.err "piece num error") ∧
    (∀ pi, lookInt dict "piece" = some pi → pi ≥ cnt →
        readOnePiece dec cnt pieces payload = GoRes.err "piece num error") ∧
    (∀ pi, lookInt dict "piece" = some pi → pi < cnt →
        lookInt dict "msg_type" = none →
        readOnePiece dec cnt pieces payload = GoRes.err "piece type error") ∧
    (∀ pi mt, lookInt dict "piece" = some pi → pi < cnt →
        lookInt dict "msg_type" = some mt → mt ≠ 1 →
        readOnePiece dec cnt pieces payload = GoRes.err "piece type error") ∧
    (∀ pi, lookInt dict "piece" = some pi → 0 ≤ pi → pi < cnt →
        pi.toNat < pieces.length → lookInt dict "msg_type" = some 1 →
        readOnePiece dec cnt pieces payload =
          GoRes.ok (pieces.set pi.toNat (some (payload.drop (tIdx + 2))))) ∧
    (∀ pi, 0 ≤ cnt → lookInt dict "piece" = some pi → pi < 0 →
        lookInt dict "msg_type" = some 1 →
        readOnePiece dec cnt pieces payload = GoRes.panic) := by
  have ht : trailerIdx payload = (tIdx : Int) + 2 := by
    simp [trailerIdx, hEE, Int.ofNat_eq_natCast]
  have ht1 : ¬ (trailerIdx payload = 1) := by rw [ht]; omega
  have htn : (trailerIdx payload).toNat = tIdx + 2 := by rw [ht]; omega
  refine ⟨?_, ?_, ?_, ?_, ?_, ?_⟩
  · intro hpi
    simp only [readOnePiece, if_neg ht1, htn, hdec, hpi]
  · intro pi hpi hge
    simp only [readOnePiece, if_neg ht1, htn, hdec, hpi]
    rw [if_pos hge]
  · intro pi hpi hlt hmt
    simp only [readOnePiece, if_neg ht1, htn, hdec, hpi, hmt]
    rw [if_neg (by omega)]
  · intro pi mt hpi hlt hmt hne
    simp only [readOnePiece, if_neg ht1, htn, hdec, hpi, hmt]
    rw [if_neg (by omega), if_pos hne]
  · intro pi hpi h0 hlt hlen hmt
    simp only [readOnePiece, if_neg ht1, htn, hdec, hpi, hmt]
    rw [if_neg (by omega), if_neg (by omega), if_pos ⟨h0, hlen⟩]
  · intro pi hcnt hpi hneg hmt
    simp only [readOnePiece, if_neg ht1, htn, hdec, hpi, hmt]
    rw [if_neg (by omega), if_neg (by omega),
      if_neg (fun hc => by omega)]

/-- Witness for C2 (amended): a reject reply (`msg_type = 2`) is a
piece-type error, and a well-formed data reply is stored at its index
(here overwriting the slot). -/
theorem C2_piece_reply_validation_witness :
    readOnePiece (decPiece 0 2) 3 [none, none, none]
        (strBytes "d8:msg_typei2e5:piecei0ee") = GoRes.err "piece type error" ∧
    readOnePiece (decPiece 0 1) 1 [some [1]]
        (strBytes "d8:msg_typei1e5:piecei0ee" ++ [9, 9]) =
      GoRes.ok [some [9, 9]] := by
  constructor
  · have h := C2_piece_reply_validation (decPiece 0 2) 3 [none, none, none]
      (strBytes "d8:msg_typei2e5:piecei0ee")
      [("piece", Benc.bint 0), ("msg_type", Benc.bint 2)] 23 (by decide) rfl
    exact h.2.2.2.1 0 2 rfl (by decide) rfl (by decide)
  · have h := C2_piece_reply_validation (decPiece 0 1) 1 [some [1]]
      (strBytes "d8:msg_typei1e5:piecei0ee" ++ [9, 9])
      [("piece", Benc.bint 0), ("msg_type", Benc.bint 1)] 23 (by decide) rfl
    exact h.2.2.2.2.1 0 rfl (by decide) (by decide) (by decide) rfl

/-- Stores do not change the length of the piece table. -/
theorem applyStores_length (ws : List (Nat × List Nat)) :
    ∀ pieces : List (Option (List Nat)),
      (applyStores pieces ws).length = pieces.length := by
  induction ws with
  | nil => intro pieces; rfl
  | cons w rest ih =>
    intro pieces
    simp only [applyStores, List.foldl_cons] at *
    rw [ih (pieces.set w.1 (some w.2))]
    simp

/-- Slot `k` after a store sequence holds the last payload written at
`k`, or its original value when no store targeted `k`. -/
theorem applyStores_getElem (ws : List (Nat × List Nat)) :
    ∀ (pieces : List (Option (List Nat))) (k : Nat), k < pieces.length →
      (applyStores pieces ws)[k]? =
        match lastStore ws k with
        | some v => some (some v)
        | none => pieces[k]? := by
  induction ws with
  | nil => intro pieces k hk; rfl
  | cons w rest ih =>
    intro pieces k hk
    simp only [applyStores, List.foldl_cons]
    have hrec := ih (pieces.set w.1 (some w.2)) k (by simpa using hk)
    simp only [applyStores] at hrec
    rw [hrec]
    simp only [lastStore]
    cases hrest : lastStore rest k with
    | some v => rfl
    | none =>
      by_cases hw : w.1 = k
      · subst hw
        simp [List.getElem?_set_self hk]
      · simp [hw, List.getElem?_set_ne hw]

/-- Claim C8: piece storage is index-addressed and last-write-wins: a
valid data reply for index `k` is stored by overwriting slot `k`,
without error, whatever the slot previously held; and any two store
sequences with the same last write at every index produce the same
table and therefore the same final concatenation, independent of
arrival order and duplicates. -/
theorem C8_last_write_wins :
    (∀ (dec : List Nat → Except String Bdict) (cnt : Int)
        (pieces : List (Option (List Nat))) (payload : List Nat)
        (dict : Bdict) (tIdx : Nat) (pi : Int),
        findEE payload = some tIdx →
        dec (payload.take (tIdx + 2)) = Except.ok dict →
        lookInt dict "piece" = some pi →
        lookInt dict "msg_type" = some 1 →
        0 ≤ pi → pi < cnt → pi.toNat < pieces.length →
        readOnePiece dec cnt pieces payload =
          GoRes.ok (pieces.set pi.toNat (some (payload.drop (tIdx + 2))))) ∧
    (∀ (pieces : List (Option (List Nat))) (ws ws' : List (Nat × List Nat)),
        (∀ k, lastStore ws k = lastStore ws' k) →
        applyStores pieces ws = applyStores pieces ws' ∧
        joinPieces (applyStores pieces ws) =
          joinPieces (applyStores pieces ws')) := by
  constructor
  · intro dec cnt pieces payload dict tIdx pi hEE hdec hpi hmt h0 hlt hlen
    have ht : trailerIdx payload = (tIdx : Int) + 2 := by
      simp [trailerIdx, hEE, Int.ofNat_eq_natCast]
    have ht1 : ¬ (trailerIdx payload = 1) := by rw [ht]; omega
    have htn : (trailerIdx payload).toNat = tIdx + 2 := by rw [ht]; omega
    simp only [readOnePiece, if_neg ht1, htn, hdec, hpi, hmt]
    rw [if_neg (by omega), if_neg (by omega), if_pos ⟨h0, hlen⟩]
  · intro pieces ws ws' h
    have heq : applyStores pieces ws = applyStores pieces ws' := by
      apply List.ext_getElem?_iff.mpr
      intro k
      by_cases hk : k < pieces.length
      · rw [applyStores_getElem ws pieces k hk,
          applyStores_getElem ws' pieces k hk, h k]
      · have h1 := applyStores_length ws pieces
        have h2 := applyStores_length ws' pieces
        rw [List.getElem?_eq_none (by omega), List.getElem?_eq_none (by omega)]
    exact ⟨heq, by rw [heq]⟩

/-- Witness for C8: a valid reply overwrites an occupied slot without
error, and the permuted store sequence `[(1, [6]), (0, [5])]` yields the
same table and concatenation as `[(0, [5]), (1, [6])]`. -/
theorem C8_last_write_wins_witness :
    readOnePiece (decPiece 0 1) 1 [some [1]]
        (strBytes "d8:msg_typei1e5:piecei0ee" ++ [3, 4]) =
      GoRes.ok [some [3, 4]] ∧
    applyStores [none, none] [(0, [5]), (1, [6])] =
      applyStores [none, none] [(1, [6]), (0, [5])] ∧
    joinPieces (applyStores [none, none] [(0, [5]), (1, [6])]) =
      joinPieces (applyStores [none, none] [(1, [6]), (0, [5])]) := by
  have hperm : ∀ k : Nat,
      lastStore [(0, [5]), (1, [6])] k = lastStore [(1, [6]), (0, [5])] k := by
    intro k
    match k with
    | 0 => rfl
    | 1 => rfl
    | n + 2 =>
      have h0 : ¬ ((0 : Nat) = n + 2) := by omega
      have h1 : ¬ ((1 : Nat) = n + 2) := by omega
      simp [lastStore, h0, h1]
  have hb := C8_last_write_wins.2 [none, none]
    [(0, [5]), (1, [6])] [(1, [6]), (0, [5])] hperm
  have ha := C8_last_write_wins.1 (decPiece 0 1) 1 [some [1]]
    (strBytes "d8:msg_typei1e5:piecei0ee" ++ [3, 4])
    [("piece", Benc.bint 0), ("msg_type", Benc.bint 1)] 23 0
    (by decide) rfl rfl rfl (by decide) (by decide) (by decide)
  exact ⟨ha, hb.1, hb.2⟩

/-- If the read loop returns metadata, the returned bytes are the
concatenation of a completed piece table and their digest equals the
info hash. -/
theorem begin_ok_characterization (dec : List Nat → Except String Bdict)
    (sh : List Nat → List Nat) (hash : List Nat) (cnt : Int) :
    ∀ (frames : List (List Nat)) (pieces : List (Option (List Nat)))
      (out : List Nat),
      Begin dec sh hash cnt frames pieces = GoRes.ok out →
      ∃ pieces2, checkDone pieces2 = true ∧ out = joinPieces pieces2 ∧
        sh out = hash := by
  intro frames
  induction frames with
  | nil => intro pieces out h; cases h
  | cons f rest ih =>
    intro pieces out h
    simp only [Begin] at h
    split at h
    · cases h
    · split at h
      · exact ih pieces out h
      · split at h
        · cases h
        · split at h
          · exact ih pieces out h
          · split at h
            · cases h
            · cases h
            · next ps hps =>
              split at h
              · exact ih ps out h
              · next hdone =>
                split at h
                · next hsh =>
                  injection h with h
                  subst h
                  exact ⟨ps, by simpa using hdone, rfl, hsh⟩
                · cases h

/-- Claim C1: when the assembly becomes complete, the loop concatenates
the stored pieces in index order and compares their SHA-1 digest with
the info hash: on equality `Begin` returns exactly the concatenated
bytes with no error, on inequality it returns the checksum error (the
data result being Go `nil`); and whenever `Begin` returns metadata at
all, that metadata's digest equals the info hash — mismatched bytes are
never returned. -/
theorem C1_checksum_gate (dec : List Nat → Except String Bdict)
    (sh : List Nat → List Nat) (hash : List Nat) (cnt : Int) :
    (∀ (rest : List (List Nat)) (pieces pieces2 : List (Option (List Nat)))
        (payload : List Nat),
        readOnePiece dec cnt pieces payload = GoRes.ok pieces2 →
        checkDone pieces2 = true →
        Begin dec sh hash cnt ((extended :: 1 :: payload) :: rest) pieces =
          (if sh (joinPieces pieces2) = hash then GoRes.ok (joinPieces pieces2)
           else GoRes.err "metadata checksum mismatch")) ∧
    (∀ (frames : List (List Nat)) (pieces : List (Option (List Nat)))
        (out : List Nat),
        Begin dec sh hash cnt frames pieces = GoRes.ok out →
        sh out = hash) := by
  constructor
  · intro rest pieces pieces2 payload hro hdone
    simp only [Begin]
    simp [hro, hdone]
  · intro frames pieces out h
    obtain ⟨ps, hc, hj, hsh⟩ :=
      begin_ok_characterization dec sh hash cnt frames pieces out h
    exact hsh

/-- Witness for C1: with a one-piece assembly completed by the frame
carrying payload byte 7, the loop returns exactly `[7]` when the digest
matches the info hash and the checksum error when it does not. -/
theorem C1_checksum_gate_witness :
    Begin (decPiece 0 1) shId [7] 1
        [extended :: 1 :: (strBytes "d8:msg_typei1e5:piecei0ee" ++ [7])]
        [none] = GoRes.ok [7] ∧
    Begin (decPiece 0 1) shId [9] 1
        [extended :: 1 :: (strBytes "d8:msg_typei1e5:piecei0ee" ++ [7])]
        [none] = GoRes.err "metadata checksum mismatch" := by
  have h1 := (C1_checksum_gate (decPiece 0 1) shId [7] 1).1 []
    [none] [some [7]] (strBytes "d8:msg_typei1e5:piecei0ee" ++ [7])
    (by decide) (by decide)
  have h2 := (C1_checksum_gate (decPiece 0 1) shId [9] 1).1 []
    [none] [some [7]] (strBytes "d8:msg_typei1e5:piecei0ee" ++ [7])
    (by decide) (by decide)
  constructor
  · rw [h1]; decide
  · rw [h2]; decide

end DHT
